import Mathlib

/-!
Verification of src/validate_mods.py (FM Reloaded Trusted Store validator).

The Python program is shallowly embedded over a JSON value type `JVal`.
Python dictionaries are modelled as association lists with distinct keys
(as produced by json.load); lookups take the first matching key.  Code
that can raise a Python exception is modelled in `Except PyErr`; the
validator catches no exception in any of the validated functions, so a
`.error` result models an exception escaping to the caller (a process
crash in `main`).  Machine details that the claims do not touch are
approximated and marked in comments: `str.lower` and the regex class
`\d` are modelled on ASCII (Python also maps some non-ASCII characters),
and the text of Python `repr` inside f-strings is simplified for
non-string values (quoting and escaping of special characters).
-/

set_option autoImplicit false

namespace FMStore

/-- A JSON value as produced by `json.load`: the input domain of every
validated function. -/
inductive JVal where
  | null : JVal
  | bool (b : Bool) : JVal
  | int (n : Int) : JVal
  | str (s : String) : JVal
  | arr (xs : List JVal) : JVal
  | obj (kvs : List (String × JVal)) : JVal

/-- A parsed JSON object (Python dict): an association list with
distinct keys. -/
abbrev Mod := List (String × JVal)

/-- The Python exceptions the embedded code can raise. -/
inductive PyErr where
  | typeError (msg : String) : PyErr
  | attributeError (msg : String) : PyErr

/-- Dictionary lookup, `d[k]` or the hit of `d.get(k)`. -/
def dictGet? (kvs : Mod) (k : String) : Option JVal :=
  match kvs with
  | [] => none
  | (k2, v) :: rest => if k2 == k then some v else dictGet? rest k

/-- Python truthiness of a JSON value. -/
def pyTruthy : JVal → Bool
  | .null => false
  | .bool b => b
  | .int n => !(n == 0)
  | .str s => !s.isEmpty
  | .arr xs => !xs.isEmpty
  | .obj kvs => !kvs.isEmpty

mutual
/-- Python `==` between JSON values; `bool` is an `int` subtype, so
`0 == False` and `1 == True`.  (Dictionary comparison is modelled
structurally; no embedded comparison ever reaches that case.) -/
def pyEqBool : JVal → JVal → Bool
  | .null, .null => true
  | .bool a, .bool b => a == b
  | .int a, .int b => a == b
  | .int a, .bool b => a == (if b then (1 : Int) else 0)
  | .bool a, .int b => (if a then (1 : Int) else 0) == b
  | .str a, .str b => a == b
  | .arr a, .arr b => pyEqList a b
  | .obj a, .obj b => pyEqKVs a b
  | _, _ => false

def pyEqList : List JVal → List JVal → Bool
  | [], [] => true
  | a :: as2, b :: bs2 => pyEqBool a b && pyEqList as2 bs2
  | _, _ => false

def pyEqKVs : List (String × JVal) → List (String × JVal) → Bool
  | [], [] => true
  | (k1, v1) :: as2, (k2, v2) :: bs2 => k1 == k2 && pyEqBool v1 v2 && pyEqKVs as2 bs2
  | _, _ => false
end

/-- Comma-space join, Python `", ".join`. -/
def joinComma : List String → String
  | [] => ""
  | [s] => s
  | s :: rest => s ++ ", " ++ joinComma rest

mutual
/-- Python `repr` of a JSON value (string quoting simplified: the
escaping of quotes and control characters inside a string is not
reproduced; no claim depends on it). -/
def pyRepr : JVal → String
  | .null => "None"
  | .bool true => "True"
  | .bool false => "False"
  | .int n => toString n
  | .str s => "\x27" ++ s ++ "\x27"
  | .arr xs => "[" ++ joinComma (pyReprList xs) ++ "]"
  | .obj kvs => "\x7b" ++ joinComma (pyReprKVs kvs) ++ "\x7d"

def pyReprList : List JVal → List String
  | [] => []
  | x :: xs => pyRepr x :: pyReprList xs

def pyReprKVs : List (String × JVal) → List String
  | [] => []
  | (k, v) :: kvs => ("\x27" ++ k ++ "\x27: " ++ pyRepr v) :: pyReprKVs kvs
end

/-- Python `str` of a JSON value, as interpolated by f-strings. -/
def pyStr : JVal → String
  | .str s => s
  | v => pyRepr v

/-- Python `len`; raises TypeError on values without a length. -/
def pyLen : JVal → Except PyErr Nat
  | .str s => .ok s.length
  | .arr xs => .ok xs.length
  | .obj kvs => .ok kvs.length
  | _ => .error (.typeError "object has no len()")

/-- ASCII lower-casing, Python `str.lower` (Python also lowers
non-ASCII letters; every compared constant here is ASCII). -/
def lowerStr (s : String) : String :=
  String.mk (s.data.map Char.toLower)

/-- Python `str.endswith`. -/
def endsWithStr (m sfx : String) : Bool :=
  sfx.data.isSuffixOf m.data

/-- The last character of a string (space for the empty string); used
to separate the distinct literal tails of the diagnostic messages. -/
def lastCh (s : String) : Char :=
  s.data.getLastD ' '

/-! ## URL and version predicates (source lines 32-61) -/

/-- One-or-more ASCII digits at the front, Python regex `\d+` (Python
`\d` also matches non-ASCII decimal digits; the spec speaks of decimal
digits and every claim example is ASCII).  `true` when the digit run is
non-empty and the continuation accepts the rest. -/
def runDigits (cs : List Char) (k : List Char → Bool) : Bool :=
  !(cs.takeWhile Char.isDigit).isEmpty && k (cs.dropWhile Char.isDigit)

/-- A literal character at the front of the input. -/
def expectCh (c : Char) (cs : List Char) (k : List Char → Bool) : Bool :=
  match cs with
  | c2 :: r => c2 == c && k r
  | [] => false

/-- End of input for Python `re.match` with a final `$`: `$` matches at
the end of the string or just before one trailing newline. -/
def dollarEnd (cs : List Char) : Bool :=
  cs.isEmpty || cs == ['\n']

/-- Function validate_version (source lines 59-61): `re.match` of
`VERSION_PATTERN = r"^\d+\.\d+\.\d+$"` against the string. -/
def validate_version (version : String) : Bool :=
  runDigits version.data (fun r1 =>
  expectCh '.' r1 (fun r2 =>
  runDigits r2 (fun r3 =>
  expectCh '.' r3 (fun r4 =>
  runDigits r4 dollarEnd))))

/-- A character of the class `[A-Za-z0-9_.-]` of `GITHUB_REPO_PATTERN`. -/
def repoChar (c : Char) : Bool :=
  ('A' ≤ c && c ≤ 'Z') || ('a' ≤ c && c ≤ 'z') || ('0' ≤ c && c ≤ '9') ||
    c == '_' || c == '.' || c == '-'

/-- One-or-more repo characters at the front, `[A-Za-z0-9_.-]+`. -/
def runRepoChars (cs : List Char) (k : List Char → Bool) : Bool :=
  !(cs.takeWhile repoChar).isEmpty && k (cs.dropWhile repoChar)

/-- Matching of `GITHUB_REPO_PATTERN = r"^[A-Za-z0-9_.-]+/[A-Za-z0-9_.-]+$"`
(source line 34, used at line 86). -/
def matchRepo (s : String) : Bool :=
  runRepoChars s.data (fun r1 =>
  expectCh '/' r1 (fun r2 =>
  runRepoChars r2 dollarEnd))

/-! ### CPython urllib.parse.urlsplit, scheme and netloc components.

Modelled from the CPython standard library (the program calls
`urlparse` and reads only `.scheme` and `.netloc`): the input is
left-stripped of C0-control-or-space characters, tab and newline
characters are removed everywhere, a scheme is recognised before the
first colon when it starts with an ASCII letter and uses only
letters, digits and `+`, `-`, `.`; the netloc follows a leading `//`
and runs to the first `/`, `?` or `#`.  A netloc with unbalanced
square brackets raises ValueError (modelled as `none`; the further
validation of a bracketed IPv6 host is approximated as accepting,
which no claim exercises). -/

/-- A character of CPython `scheme_chars`. -/
def schemeChar (c : Char) : Bool :=
  ('A' ≤ c && c ≤ 'Z') || ('a' ≤ c && c ≤ 'z') || ('0' ≤ c && c ≤ '9') ||
    c == '+' || c == '-' || c == '.'

/-- Split off the URL scheme: the text before the first colon, when it
starts with an ASCII letter and consists of scheme characters. -/
def schemeSplit (cs : List Char) : String × List Char :=
  let before := cs.takeWhile (fun c => !(c == ':'))
  let after := cs.dropWhile (fun c => !(c == ':'))
  match after with
  | ':' :: rest =>
    match before with
    | [] => ("", cs)
    | c0 :: _ =>
      if (('A' ≤ c0 && c0 ≤ 'Z') || ('a' ≤ c0 && c0 ≤ 'z')) && before.all schemeChar then
        (lowerStr (String.mk before), rest)
      else ("", cs)
  | _ => ("", cs)

/-- Split off the netloc after a leading `//`, up to `/`, `?` or `#`. -/
def netlocSplit (cs : List Char) : String :=
  match cs with
  | '/' :: '/' :: rest =>
    String.mk (rest.takeWhile (fun c => !(c == '/') && !(c == '?') && !(c == '#')))
  | _ => ""

/-- Scheme and netloc of a URL string in the manner of CPython
`urlsplit`; `none` models a ValueError raised for unbalanced brackets. -/
def urlSchemeNetloc (s : String) : Option (String × String) :=
  let cs0 := s.data.dropWhile (fun c => c.toNat ≤ 32)
  let cs := cs0.filter (fun c => !(c == '\t') && !(c == '\n') && !(c == '\r'))
  let sr := schemeSplit cs
  let nl := netlocSplit sr.2
  if (nl.data.contains '[' && !(nl.data.contains ']')) ||
     (nl.data.contains ']' && !(nl.data.contains '[')) then none
  else some (sr.1, nl)

/-- Function validate_url (source lines 50-56): true iff parsing yields a
non-empty scheme and a non-empty netloc; a ValueError is caught and
yields false. -/
def validate_url (url : String) : Bool :=
  match urlSchemeNetloc url with
  | none => false
  | some (scheme, netloc) => !scheme.isEmpty && !netloc.isEmpty

/-! ## JVal-level wrappers for stdlib calls made by the validator -/

/-- Call `re.match(pattern, v)` for a compiled string predicate: raises
TypeError unless `v` is a string. -/
def pyReMatch (r : String → Bool) (v : JVal) : Except PyErr Bool :=
  match v with
  | .str s => .ok (r s)
  | _ => .error (.typeError "expected string or bytes-like object")

/-- Call `validate_url(v)` at a call site receiving an arbitrary value: in
CPython, `urlparse` coerces a falsy non-string argument to the empty
string (parsing to empty scheme and netloc, hence false) and calls
`.decode` on a truthy non-string argument, raising AttributeError,
which `validate_url` does not catch. -/
def pyValidateUrl (v : JVal) : Except PyErr Bool :=
  match v with
  | .str s => .ok (validate_url s)
  | v => if pyTruthy v then .error (.attributeError "object has no attribute decode")
         else .ok false

/-- Membership in the tuple `(None, False, True)` (source line 100),
under Python equality: `0 == False` and `1 == True`. -/
def pyMemNFT (v : JVal) : Bool :=
  pyEqBool v .null || pyEqBool v (.bool false) || pyEqBool v (.bool true)

/-- Hashability check performed by `x in {...}` set membership: lists
and dicts raise TypeError. -/
def pyHashableCheck (v : JVal) : Except PyErr JVal :=
  match v with
  | .arr _ => .error (.typeError "unhashable type: \x27list\x27")
  | .obj _ => .error (.typeError "unhashable type: \x27dict\x27")
  | v => .ok v

/-- Attribute access `v.get(...)` requires a dict; any other value raises
AttributeError. -/
def pyGetAttrDict (v : JVal) : Except PyErr Mod :=
  match v with
  | .obj kvs => .ok kvs
  | _ => .error (.attributeError "object has no attribute get")

/-- Python iteration over a value: lists yield their elements, strings
their characters, dicts their keys; other values raise TypeError. -/
def pyIter (v : JVal) : Except PyErr (List JVal) :=
  match v with
  | .arr xs => .ok xs
  | .str s => .ok (s.data.map (fun c => .str (String.mk [c])))
  | .obj kvs => .ok (kvs.map (fun kv => .str kv.1))
  | _ => .error (.typeError "object is not iterable")

/-! ## Validation rules and message construction (source lines 17-36) -/

def REQUIRED_FIELDS : List String :=
  ["name", "version", "type", "author", "description", "homepage", "download"]

def VALID_TYPES : List String :=
  ["ui", "bundle", "camera", "skins", "graphics", "tactics", "database",
   "ruleset", "editor-data", "audio", "misc"]

def MAX_DESCRIPTION_LENGTH : Nat := 200

/-- The `Mod #<index> (<name>): ` front matter of every per-mod message. -/
def mkTag (index : Nat) (modName : String) : String :=
  "Mod #" ++ toString index ++ " (" ++ modName ++ "): "

/-- The value `mod.get("name", "Unknown")` interpolated through `str`. -/
def modNameOf (mod : Mod) : String :=
  pyStr ((dictGet? mod "name").getD (.str "Unknown"))

/-! ## validate_download_block (source lines 64-129) -/

/-- The github_release branch (source lines 84-116).  The short
circuit `not repo or not re.match(...)` calls the regex only on a
truthy `repo`, so only a truthy non-string `repo` raises. -/
def grErrors (d : Mod) (index : Nat) (modName : String) : Except PyErr (List String) :=
  let tagP := mkTag index modName
  let repo := (dictGet? d "repo").getD .null
  (if pyTruthy repo then pyReMatch matchRepo repo else .ok false).bind (fun repoOk =>
  let repoErrs := if !pyTruthy repo || !repoOk then
      [tagP ++ "download.repo must look like owner/repository"] else []
  let asset := (dictGet? d "asset").getD .null
  let isAssetStr := match asset with | .str _ => true | _ => false
  let assetErrs := if !pyTruthy asset || !isAssetStr then
      [tagP ++ "download.asset is required for github_release downloads"] else []
  let latestFlag := (dictGet? d "latest").getD .null
  let latestErrs := if !pyMemNFT latestFlag then
      [tagP ++ "download.latest must be boolean when provided"] else []
  let tagChecks :=
    if !pyTruthy latestFlag then
      (let tagOverride := (dictGet? d "tag").getD .null
       let isTagStr := match tagOverride with | .str _ => true | _ => false
       if pyTruthy tagOverride && !isTagStr then
         [tagP ++ "download.tag must be a string"] else []) ++
      (let tagPfx := (dictGet? d "tag_prefix").getD (.str "v")
       let isPfxStr := match tagPfx with | .str _ => true | _ => false
       if !isPfxStr then [tagP ++ "download.tag_prefix must be a string"] else [])
    else []
  .ok (repoErrs ++ assetErrs ++ latestErrs ++ tagChecks))

/-- The direct branch (source lines 118-127); never raises. -/
def directErrors (d : Mod) (index : Nat) (modName : String) : List String :=
  let tagP := mkTag index modName
  match (dictGet? d "url").getD .null with
  | .str s =>
    if s.isEmpty then [tagP ++ "download.url is required for direct downloads"]
    else if !validate_url s then [tagP ++ "download.url must be a valid URL"]
    else []
  | _ => [tagP ++ "download.url is required for direct downloads"]

/-- Function validate_download_block (source lines 64-129).  The warnings list
is created and returned but never appended to. -/
def validate_download_block (mod : Mod) (index : Nat) :
    Except PyErr (List String × List String) :=
  let modName := modNameOf mod
  let tagP := mkTag index modName
  match (dictGet? mod "download").getD .null with
  | .obj d =>
    (pyHashableCheck ((dictGet? d "type").getD .null)).bind (fun tv =>
    let isGR := pyEqBool tv (.str "github_release")
    let isDirect := pyEqBool tv (.str "direct")
    if !(isGR || isDirect) then
      .ok ([tagP ++ "Unsupported download type \x27" ++ pyStr tv ++
        "\x27. Supported types: github_release, direct"], [])
    else
      (if isGR then grErrors d index modName else .ok []).bind (fun ge =>
      let de := if isDirect then directErrors d index modName else []
      .ok (ge ++ de, [])))
  | _ => .ok ([tagP ++ "\x27download\x27 must be an object"], [])

/-! ## validate_mod_entry (source lines 132-225), one definition per
source block, sequenced below in source order. -/

/-- Source lines 138-140: one error per absent required field. -/
def requiredFieldErrors (mod : Mod) (index : Nat) (modName : String) : List String :=
  REQUIRED_FIELDS.filterMap (fun f =>
    if (dictGet? mod f).isNone then
      some (mkTag index modName ++ "Missing required field \x27" ++ f ++ "\x27")
    else none)

/-- Source lines 142-152: the type enum check (case-insensitive via
`.lower()`); never raises. -/
def typeFieldErrors (mod : Mod) (index : Nat) (modName : String) : List String :=
  match dictGet? mod "type" with
  | none => []
  | some (.str t) =>
    if VALID_TYPES.contains (lowerStr t) then []
    else [mkTag index modName ++ "Invalid type \x27" ++ t ++
      "\x27. Must be one of: " ++ joinComma VALID_TYPES]
  | some v => [mkTag index modName ++ "Invalid type \x27" ++ pyStr v ++
      "\x27. Must be a string"]

/-- Source lines 154-158: `validate_version(mod["version"])`; `re.match`
raises TypeError on every non-string value. -/
def versionFieldErrors (mod : Mod) (index : Nat) (modName : String) :
    Except PyErr (List String) :=
  match dictGet? mod "version" with
  | none => .ok []
  | some v => (pyReMatch validate_version v).map (fun ok =>
      if ok then [] else
        [mkTag index modName ++ "Invalid version format \x27" ++ pyStr v ++
         "\x27. Must be semantic versioning (X.Y.Z)"])

/-- Source lines 160-163: `validate_url(mod["homepage"])`. -/
def homepageFieldErrors (mod : Mod) (index : Nat) (modName : String) :
    Except PyErr (List String) :=
  match dictGet? mod "homepage" with
  | none => .ok []
  | some v => (pyValidateUrl v).map (fun ok =>
      if ok then [] else
        [mkTag index modName ++ "Invalid homepage URL \x27" ++ pyStr v ++ "\x27"])

/-- Source lines 165-169: changelog_url checked only when truthy, and
only as a warning. -/
def changelogWarnings (mod : Mod) (index : Nat) (modName : String) :
    Except PyErr (List String) :=
  match dictGet? mod "changelog_url" with
  | none => .ok []
  | some v =>
    if pyTruthy v then
      (pyValidateUrl v).map (fun ok =>
        if ok then [] else
          [mkTag index modName ++ "Invalid changelog_url \x27" ++ pyStr v ++ "\x27"])
    else .ok []

/-- Source lines 171-175: the deprecated flat field. -/
def deprecatedErrors (mod : Mod) (index : Nat) (modName : String) : List String :=
  if (dictGet? mod "download_url").isSome then
    [mkTag index modName ++
     "download_url is deprecated; use the \x27download\x27 object instead"]
  else []

/-- Source lines 177-181: description length warning; `len` raises on
values without a length. -/
def descriptionWarnings (mod : Mod) (index : Nat) (modName : String) :
    Except PyErr (List String) :=
  match dictGet? mod "description" with
  | none => .ok []
  | some v => (pyLen v).map (fun n =>
      if decide (n > MAX_DESCRIPTION_LENGTH) then
        [mkTag index modName ++ "Description too long (" ++ toString n ++
         " characters, max " ++ toString MAX_DESCRIPTION_LENGTH ++ ")"]
      else [])

/-- Source lines 183-188: a required field holding an all-whitespace
string.  Python `value.strip()` is falsy iff every character is
whitespace (the Lean whitespace class covers the characters involved). -/
def emptyFieldErrors (mod : Mod) (index : Nat) (modName : String) : List String :=
  REQUIRED_FIELDS.filterMap (fun f =>
    match dictGet? mod f with
    | some (.str s) =>
      if s.data.all Char.isWhitespace then
        some (mkTag index modName ++ "Field \x27" ++ f ++ "\x27 cannot be empty")
      else none
    | _ => none)

/-- Source lines 190-203: dependencies, conflicts and install_notes
type checks; all isinstance-guarded, never raise. -/
def seqFieldErrors (mod : Mod) (index : Nat) (modName : String) : List String :=
  (match dictGet? mod "dependencies" with
   | some (.arr _) => []
   | some _ => [mkTag index modName ++ "\x27dependencies\x27 must be an array"]
   | none => []) ++
  (match dictGet? mod "conflicts" with
   | some (.arr _) => []
   | some _ => [mkTag index modName ++ "\x27conflicts\x27 must be an array"]
   | none => []) ++
  (match dictGet? mod "install_notes" with
   | some (.str _) => []
   | some _ => [mkTag index modName ++ "\x27install_notes\x27 must be a string"]
   | none => [])

/-- Source lines 209-212: `asset_name = str(download_info.get("asset") or "")`
guarded by `if download_info:` (an empty dict is falsy). -/
def assetNameOf (mod : Mod) : String :=
  match dictGet? mod "download" with
  | some (.obj d) =>
    if d.isEmpty then ""
    else
      let a := (dictGet? d "asset").getD .null
      if pyTruthy a then pyStr a else ""
  | _ => ""

/-- Source lines 214-219: manifest_url checked only when truthy. -/
def manifestFieldErrors (mod : Mod) (index : Nat) (modName : String) :
    Except PyErr (List String) :=
  let m := (dictGet? mod "manifest_url").getD .null
  if pyTruthy m then
    (pyValidateUrl m).map (fun ok =>
      if ok then [] else
        [mkTag index modName ++ "Invalid manifest_url \x27" ++ pyStr m ++ "\x27"])
  else .ok []

/-- Source lines 220-223: the non-zip asset rule; the asset name is
lower-cased before the `.zip` suffix check, and the rule is skipped
when `manifest_url` is truthy or the resolved asset name is empty. -/
def zipRuleErrors (mod : Mod) (index : Nat) (modName : String) : List String :=
  let a := assetNameOf mod
  let m := (dictGet? mod "manifest_url").getD .null
  if !a.isEmpty && !endsWithStr (lowerStr a) ".zip" && !pyTruthy m then
    [mkTag index modName ++ "Non-zip release assets require a valid manifest_url"]
  else []

/-- Function validate_mod_entry (source lines 132-225): the blocks above in
source order; a raise in any block aborts the call, later blocks run
only when the earlier ones returned. -/
def validate_mod_entry (mod : Mod) (index : Nat) :
    Except PyErr (List String × List String) :=
  let modName := modNameOf mod
  (versionFieldErrors mod index modName).bind (fun e3 =>
  (homepageFieldErrors mod index modName).bind (fun e4 =>
  (changelogWarnings mod index modName).bind (fun w1 =>
  (descriptionWarnings mod index modName).bind (fun w2 =>
  (validate_download_block mod index).bind (fun dl =>
  (manifestFieldErrors mod index modName).bind (fun e8 =>
  .ok (requiredFieldErrors mod index modName ++ typeFieldErrors mod index modName ++
       e3 ++ e4 ++ deprecatedErrors mod index modName ++
       emptyFieldErrors mod index modName ++ seqFieldErrors mod index modName ++
       dl.1 ++ e8 ++ zipRuleErrors mod index modName,
       w1 ++ w2 ++ dl.2)))))))

/-! ## check_duplicates (source lines 228-242) -/

/-- The duplicate message of source line 237 (indices are 0-based,
`enumerate` with its default start). -/
def dupMsg (name : String) (firstIndex index : Nat) : String :=
  "Duplicate mod name \x27" ++ name ++ "\x27 found at indices " ++
    toString firstIndex ++ " and " ++ toString index

/-- Lookup in the `names` dict (first-seen index per name), under
Python key equality. -/
def dupLookup : List (JVal × Nat) → JVal → Option Nat
  | [], _ => none
  | (k, i) :: rest, name => if pyEqBool k name then some i else dupLookup rest name

/-- The loop of `check_duplicates`: `index` is the position of the next
entry, `names` the dict of first-seen indices.  A non-dict entry raises
AttributeError at `mod.get`; an unhashable name raises TypeError at
`name in names`. -/
def dupGo : List JVal → Nat → List (JVal × Nat) → Except PyErr (List String)
  | [], _, _ => .ok []
  | m :: rest, index, names =>
    (pyGetAttrDict m).bind (fun d =>
    (pyHashableCheck ((dictGet? d "name").getD (.str ""))).bind (fun name =>
    match dupLookup names name with
    | some firstIndex =>
      (dupGo rest (index + 1) names).bind (fun tail =>
      .ok (dupMsg (pyStr name) firstIndex index :: tail))
    | none => dupGo rest (index + 1) ((name, index) :: names)))

/-- Function check_duplicates (source lines 228-242). -/
def check_duplicates (mods : List JVal) : Except PyErr (List String) :=
  dupGo mods 0 []

/-! ## validate_store_structure (source lines 245-267) -/

/-- Function validate_store_structure: total, no raising call. -/
def validate_store_structure (data : Mod) : List String × List String :=
  match dictGet? data "mods" with
  | none => (["Missing \x27mods\x27 array in store"], [])
  | some (.arr mods) =>
    let warns1 := if (dictGet? data "version").isNone then
        ["Missing \x27version\x27 field in store metadata"] else []
    let warns2 := match dictGet? data "mod_count" with
      | none => []
      | some c =>
        if pyEqBool (.int (mods.length : Int)) c then []
        else ["mod_count (" ++ pyStr c ++ ") does not match actual count (" ++
              toString mods.length ++ ")"]
    ([], warns1 ++ warns2)
  | some _ => (["\x27mods\x27 must be an array"], [])

/-! ## main after a successful load and parse (source lines 442-472).
The remote verification pass (`--verify-downloads`) is network
dependent and off by default; the default run is modelled. -/

/-- The entry loop of source lines 444-447: `enumerate(mods, start=1)`,
with each iteration calling `validate_mod_entry(mod, index)` (whose
first statement, `mod.get`, raises AttributeError on a non-dict). -/
def runEntries : List JVal → Nat → Except PyErr (List String × List String)
  | [], _ => .ok ([], [])
  | m :: rest, index =>
    (pyGetAttrDict m).bind (fun d =>
    (validate_mod_entry d index).bind (fun r =>
    (runEntries rest (index + 1)).bind (fun rs =>
    .ok (r.1 ++ rs.1, r.2 ++ rs.2))))

/-- Source lines 442-449: structure validation, the entry loop over
`data.get("mods", [])`, then `check_duplicates(data.get("mods", []))`.
The accumulated `(errors, warnings)` of the run. -/
def runValidation (data : Mod) : Except PyErr (List String × List String) :=
  let s := validate_store_structure data
  (pyIter ((dictGet? data "mods").getD (.arr []))).bind (fun mods =>
  (runEntries mods 1).bind (fun r =>
  (pyIter ((dictGet? data "mods").getD (.arr []))).bind (fun mods2 =>
  (check_duplicates mods2).bind (fun de =>
  .ok (s.1 ++ r.1 ++ de, s.2 ++ r.2)))))

/-- Source lines 456-472: the exit status of `main` once the manifest
has loaded and parsed, in a default run; `.error` models an uncaught
exception (the interpreter then exits with status 1 and no report). -/
def mainAfterParse (data : Mod) : Except PyErr Nat :=
  (runValidation data).bind (fun r =>
  .ok (if r.1.isEmpty then 0 else 1))

/-! ## Concrete manifests and entries used by counterexamples and
witnesses -/

/-- A valid direct download block. -/
def directDownload : JVal :=
  .obj [("type", .str "direct"), ("url", .str "https://example.com/f.zip")]

/-- A github_release download block with the given asset name. -/
def grDownload (asset : String) : JVal :=
  .obj [("type", .str "github_release"), ("repo", .str "ok/repo"),
        ("asset", .str asset)]

/-- An entry with all seven required fields valid, the given download
block, and extra trailing fields. -/
def baseEntry (download : JVal) (extra : Mod) : Mod :=
  [("name", .str "M"), ("version", .str "1.0.0"), ("type", .str "ui"),
   ("author", .str "a"), ("description", .str "d"),
   ("homepage", .str "https://example.com/m"), ("download", download)] ++ extra

/-- An entry whose only key is an integer-valued version. -/
def entryVersionInt : Mod := [("version", .int 1)]

/-- A fully valid entry except that its name is a list (hashable
nowhere, a string nowhere). -/
def entryListName : Mod :=
  [("name", .arr [.str "x"]), ("version", .str "1.0.0"), ("type", .str "ui"),
   ("author", .str "a"), ("description", .str "d"),
   ("homepage", .str "https://example.com/m"), ("download", directDownload)]

/-- A manifest whose single entry is `entryListName`. -/
def storeListName : Mod :=
  [("version", .str "1.0"), ("mods", .arr [.obj entryListName])]

/-- A manifest with an advisory mod_count that does not match. -/
def storeCountDrift : Mod :=
  [("version", .str "1.0"), ("mod_count", .int 5), ("mods", .arr [])]

/-- A mod whose download block carries the given `latest` value. -/
def latestMod (v : JVal) : Mod :=
  [("download", .obj [("type", .str "github_release"), ("repo", .str "ok/repo"),
    ("asset", .str "a.zip"), ("latest", v)])]

/-- The same block without a `latest` key. -/
def latestAbsentMod : Mod :=
  [("download", .obj [("type", .str "github_release"), ("repo", .str "ok/repo"),
    ("asset", .str "a.zip")])]

/-- Entries named A, B, A. -/
def modsABA : List JVal :=
  [.obj [("name", .str "A")], .obj [("name", .str "B")], .obj [("name", .str "A")]]

/-- Two entries with no name key. -/
def modsNoName : List JVal := [.obj [], .obj []]

/-! ## Generic lemmas: string tails, bind inversion -/

theorem data_append (a b : String) : (a ++ b).data = a.data ++ b.data := rfl

theorem getLastD_append (xs : List Char) (y : Char) (t : List Char) (d : Char) :
    (xs ++ y :: t).getLastD d = (y :: t).getLastD d := by
  induction xs generalizing d with
  | nil => rfl
  | cons c cs ih =>
    rw [List.cons_append, List.getLastD_cons, ih c, List.getLastD_cons,
      List.getLastD_cons]

theorem lastCh_append (a b : String) (h : b.data ≠ []) :
    lastCh (a ++ b) = lastCh b := by
  unfold lastCh
  rw [data_append]
  cases hb : b.data with
  | nil => exact absurd hb h
  | cons y t => exact getLastD_append a.data y t ' '

theorem lastCh_of_endsWith (m sfx : String) (h : endsWithStr m sfx = true)
    (hn : sfx.data ≠ []) : lastCh m = lastCh sfx := by
  unfold endsWithStr at h
  rw [List.isSuffixOf_iff_suffix] at h
  obtain ⟨t, ht⟩ := h
  unfold lastCh
  rw [← ht]
  cases hs : sfx.data with
  | nil => exact absurd hs hn
  | cons y r => exact getLastD_append t y r ' '

theorem not_endsWith_of_lastCh (m sfx : String) (hn : sfx.data ≠ [])
    (h : lastCh m ≠ lastCh sfx) : endsWithStr m sfx = false := by
  cases he : endsWithStr m sfx with
  | false => rfl
  | true => exact absurd (lastCh_of_endsWith m sfx he hn) h

theorem bind_ok_inv {α β : Type} {x : Except PyErr α} {f : α → Except PyErr β}
    {b : β} (h : x.bind f = .ok b) : ∃ a, x = .ok a ∧ f a = .ok b := by
  cases x with
  | error e => exact absurd h (by simp [Except.bind])
  | ok a => exact ⟨a, rfl, h⟩

/-! ## Decomposition of a normal return of validate_mod_entry -/

/-- The error list of a normal return, by source block in source
order. -/
def entryErrorList (mod : Mod) (index : Nat) (e3 e4 dl1 e8 : List String) :
    List String :=
  requiredFieldErrors mod index (modNameOf mod) ++
  typeFieldErrors mod index (modNameOf mod) ++ e3 ++ e4 ++
  deprecatedErrors mod index (modNameOf mod) ++
  emptyFieldErrors mod index (modNameOf mod) ++
  seqFieldErrors mod index (modNameOf mod) ++ dl1 ++ e8 ++
  zipRuleErrors mod index (modNameOf mod)

theorem validate_mod_entry_ok {mod : Mod} {index : Nat} {E W : List String}
    (h : validate_mod_entry mod index = .ok (E, W)) :
    ∃ e3 e4 w1 w2 dl e8,
      versionFieldErrors mod index (modNameOf mod) = .ok e3 ∧
      homepageFieldErrors mod index (modNameOf mod) = .ok e4 ∧
      changelogWarnings mod index (modNameOf mod) = .ok w1 ∧
      descriptionWarnings mod index (modNameOf mod) = .ok w2 ∧
      validate_download_block mod index = .ok dl ∧
      manifestFieldErrors mod index (modNameOf mod) = .ok e8 ∧
      E = entryErrorList mod index e3 e4 dl.1 e8 ∧
      W = w1 ++ w2 ++ dl.2 := by
  unfold validate_mod_entry at h
  obtain ⟨e3, h3, h⟩ := bind_ok_inv h
  obtain ⟨e4, h4, h⟩ := bind_ok_inv h
  obtain ⟨w1, h5, h⟩ := bind_ok_inv h
  obtain ⟨w2, h6, h⟩ := bind_ok_inv h
  obtain ⟨dl, h7, h⟩ := bind_ok_inv h
  obtain ⟨e8, h8, h⟩ := bind_ok_inv h
  simp only [Except.ok.injEq, Prod.mk.injEq] at h
  exact ⟨e3, e4, w1, w2, dl, e8, h3, h4, h5, h6, h7, h8, h.1.symm, h.2.symm⟩

theorem validate_mod_entry_eq_ok {mod : Mod} {index : Nat}
    {e3 e4 w1 w2 : List String} {dl : List String × List String} {e8 : List String}
    (h3 : versionFieldErrors mod index (modNameOf mod) = .ok e3)
    (h4 : homepageFieldErrors mod index (modNameOf mod) = .ok e4)
    (h5 : changelogWarnings mod index (modNameOf mod) = .ok w1)
    (h6 : descriptionWarnings mod index (modNameOf mod) = .ok w2)
    (h7 : validate_download_block mod index = .ok dl)
    (h8 : manifestFieldErrors mod index (modNameOf mod) = .ok e8) :
    validate_mod_entry mod index =
      .ok (entryErrorList mod index e3 e4 dl.1 e8, w1 ++ w2 ++ dl.2) := by
  unfold validate_mod_entry
  show (versionFieldErrors mod index (modNameOf mod)).bind _ = _
  rw [h3]
  show (homepageFieldErrors mod index (modNameOf mod)).bind _ = _
  rw [h4]
  show (changelogWarnings mod index (modNameOf mod)).bind _ = _
  rw [h5]
  show (descriptionWarnings mod index (modNameOf mod)).bind _ = _
  rw [h6]
  show (validate_download_block mod index).bind _ = _
  rw [h7]
  show (manifestFieldErrors mod index (modNameOf mod)).bind _ = _
  rw [h8]
  rfl

/-! ## Every diagnostic except the non-zip rule ends in a character
other than lowercase l, while the non-zip message ends in
"manifest_url"; this separates that rule from every other message. -/

theorem mem_ite_sing_left {α : Type} {c : Prop} [Decidable c] {m x : α}
    (hx : x ∈ if c then [m] else ([] : List α)) : x = m := by
  split at hx
  · exact List.mem_singleton.mp hx
  · exact absurd hx (by simp)

theorem mem_ite_sing_right {α : Type} {c : Prop} [Decidable c] {m x : α}
    (hx : x ∈ if c then ([] : List α) else [m]) : x = m := by
  split at hx
  · exact absurd hx (by simp)
  · exact List.mem_singleton.mp hx

theorem lastCh_ne_of_tail {a b x : String} (hx : x = a ++ b)
    (hb : b.data ≠ []) (hl : lastCh b ≠ 'l') : lastCh x ≠ 'l' := by
  subst hx
  rw [lastCh_append _ _ hb]
  exact hl

theorem lastCh_required {mod : Mod} {index : Nat} {n : String} :
    ∀ x ∈ requiredFieldErrors mod index n, lastCh x ≠ 'l' := by
  intro x hx
  unfold requiredFieldErrors at hx
  rw [List.mem_filterMap] at hx
  obtain ⟨f, _, hf⟩ := hx
  split at hf
  · injection hf with hf
    exact lastCh_ne_of_tail hf.symm (by decide) (by decide)
  · exact absurd hf (by simp)

theorem lastCh_type {mod : Mod} {index : Nat} {n : String} :
    ∀ x ∈ typeFieldErrors mod index n, lastCh x ≠ 'l' := by
  intro x hx
  unfold typeFieldErrors at hx
  split at hx
  · exact absurd hx (by simp)
  · split at hx
    · exact absurd hx (by simp)
    · rw [List.mem_singleton] at hx
      exact lastCh_ne_of_tail hx (by decide) (by decide)
  · rw [List.mem_singleton] at hx
    exact lastCh_ne_of_tail hx (by decide) (by decide)

theorem mem_urlStyle {pv : Except PyErr Bool} {msg : String} {l : List String}
    (h : pv.map (fun ok => if ok then [] else [msg]) = .ok l) :
    ∀ x ∈ l, x = msg := by
  intro x hx
  cases pv with
  | error e => exact absurd h (by simp [Except.map])
  | ok b =>
    simp only [Except.map] at h
    injection h with h
    rw [← h] at hx
    exact mem_ite_sing_right hx

theorem lastCh_version {mod : Mod} {index : Nat} {n : String} {e3 : List String}
    (h : versionFieldErrors mod index n = .ok e3) : ∀ x ∈ e3, lastCh x ≠ 'l' := by
  intro x hx
  unfold versionFieldErrors at h
  split at h
  · injection h with h
    rw [← h] at hx
    exact absurd hx (by simp)
  next v _ =>
    cases v with
    | str s =>
      have hm := @mem_urlStyle (pyReMatch validate_version (.str s)) _ _ h x hx
      exact lastCh_ne_of_tail hm (by decide) (by decide)
    | null => exact absurd h (by simp [pyReMatch, Except.map])
    | bool b => exact absurd h (by simp [pyReMatch, Except.map])
    | int k => exact absurd h (by simp [pyReMatch, Except.map])
    | arr xs => exact absurd h (by simp [pyReMatch, Except.map])
    | obj kvs => exact absurd h (by simp [pyReMatch, Except.map])

theorem lastCh_homepage {mod : Mod} {index : Nat} {n : String} {e4 : List String}
    (h : homepageFieldErrors mod index n = .ok e4) : ∀ x ∈ e4, lastCh x ≠ 'l' := by
  intro x hx
  unfold homepageFieldErrors at h
  split at h
  · injection h with h
    rw [← h] at hx
    exact absurd hx (by simp)
  · have hm := mem_urlStyle h x hx
    exact lastCh_ne_of_tail hm (by decide) (by decide)

theorem lastCh_deprecated {mod : Mod} {index : Nat} {n : String} :
    ∀ x ∈ deprecatedErrors mod index n, lastCh x ≠ 'l' := by
  intro x hx
  unfold deprecatedErrors at hx
  have hm := mem_ite_sing_left hx
  exact lastCh_ne_of_tail hm (by decide) (by decide)

theorem lastCh_empty {mod : Mod} {index : Nat} {n : String} :
    ∀ x ∈ emptyFieldErrors mod index n, lastCh x ≠ 'l' := by
  intro x hx
  unfold emptyFieldErrors at hx
  rw [List.mem_filterMap] at hx
  obtain ⟨f, _, hf⟩ := hx
  split at hf
  · split at hf
    · injection hf with hf
      exact lastCh_ne_of_tail hf.symm (by decide) (by decide)
    · exact absurd hf (by simp)
  · exact absurd hf (by simp)

theorem lastCh_seq {mod : Mod} {index : Nat} {n : String} :
    ∀ x ∈ seqFieldErrors mod index n, lastCh x ≠ 'l' := by
  intro x hx
  unfold seqFieldErrors at hx
  rw [List.mem_append, List.mem_append] at hx
  rcases hx with (hx | hx) | hx
  · split at hx
    · exact absurd hx (by simp)
    · rw [List.mem_singleton] at hx
      exact lastCh_ne_of_tail hx (by decide) (by decide)
    · exact absurd hx (by simp)
  · split at hx
    · exact absurd hx (by simp)
    · rw [List.mem_singleton] at hx
      exact lastCh_ne_of_tail hx (by decide) (by decide)
    · exact absurd hx (by simp)
  · split at hx
    · exact absurd hx (by simp)
    · rw [List.mem_singleton] at hx
      exact lastCh_ne_of_tail hx (by decide) (by decide)
    · exact absurd hx (by simp)

theorem lastCh_manifest {mod : Mod} {index : Nat} {n : String} {e8 : List String}
    (h : manifestFieldErrors mod index n = .ok e8) : ∀ x ∈ e8, lastCh x ≠ 'l' := by
  intro x hx
  unfold manifestFieldErrors at h
  simp only [] at h
  split at h
  · have hm := mem_urlStyle h x hx
    exact lastCh_ne_of_tail hm (by decide) (by decide)
  · injection h with h
    rw [← h] at hx
    exact absurd hx (by simp)

theorem lastCh_grErrors {d : Mod} {index : Nat} {n : String} {ge : List String}
    (h : grErrors d index n = .ok ge) : ∀ x ∈ ge, lastCh x ≠ 'l' := by
  intro x hx
  unfold grErrors at h
  obtain ⟨repoOk, _, h⟩ := bind_ok_inv h
  injection h with h
  rw [← h] at hx
  simp only [List.mem_append] at hx
  rcases hx with ((hx | hx) | hx) | hx
  · exact lastCh_ne_of_tail (mem_ite_sing_left hx) (by decide) (by decide)
  · exact lastCh_ne_of_tail (mem_ite_sing_left hx) (by decide) (by decide)
  · exact lastCh_ne_of_tail (mem_ite_sing_left hx) (by decide) (by decide)
  · split at hx
    · rw [List.mem_append] at hx
      rcases hx with hx | hx
      · exact lastCh_ne_of_tail (mem_ite_sing_left hx) (by decide) (by decide)
      · exact lastCh_ne_of_tail (mem_ite_sing_left hx) (by decide) (by decide)
    · exact absurd hx (by simp)

theorem lastCh_direct {d : Mod} {index : Nat} {n : String} :
    ∀ x ∈ directErrors d index n, lastCh x ≠ 'l' := by
  intro x hx
  unfold directErrors at hx
  split at hx
  · split at hx
    · rw [List.mem_singleton] at hx
      exact lastCh_ne_of_tail hx (by decide) (by decide)
    · split at hx
      · rw [List.mem_singleton] at hx
        exact lastCh_ne_of_tail hx (by decide) (by decide)
      · exact absurd hx (by simp)
  · rw [List.mem_singleton] at hx
    exact lastCh_ne_of_tail hx (by decide) (by decide)

theorem lastCh_download {mod : Mod} {index : Nat} {dl : List String × List String}
    (h : validate_download_block mod index = .ok dl) : ∀ x ∈ dl.1, lastCh x ≠ 'l' := by
  intro x hx
  unfold validate_download_block at h
  simp only [] at h
  split at h
  next d hd =>
    obtain ⟨tv, _, h⟩ := bind_ok_inv h
    split at h
    · injection h with h
      rw [← h] at hx
      rw [List.mem_singleton] at hx
      exact lastCh_ne_of_tail hx (by decide) (by decide)
    · obtain ⟨ge, hge, h⟩ := bind_ok_inv h
      injection h with h
      rw [← h] at hx
      rw [List.mem_append] at hx
      rcases hx with hx | hx
      · revert hge
        split
        · intro hge
          exact lastCh_grErrors hge x hx
        · intro hge
          injection hge with hge
          rw [← hge] at hx
          exact absurd hx (by simp)
      · revert hx
        split
        · intro hx
          exact lastCh_direct x hx
        · intro hx
          exact absurd hx (by simp)
  next =>
    injection h with h
    rw [← h] at hx
    rw [List.mem_singleton] at hx
    exact lastCh_ne_of_tail hx (by decide) (by decide)

/-- When the non-zip rule contributes nothing, no error of a normal
return of validate_mod_entry ends in lowercase l. -/
theorem entryErrors_lastCh {mod : Mod} {index : Nat} {E W : List String}
    (h : validate_mod_entry mod index = .ok (E, W))
    (hz : zipRuleErrors mod index (modNameOf mod) = []) :
    ∀ x ∈ E, lastCh x ≠ 'l' := by
  obtain ⟨e3, e4, w1, w2, dl, e8, h3, h4, _, _, h7, h8, hE, _⟩ :=
    validate_mod_entry_ok h
  intro x hx
  rw [hE] at hx
  unfold entryErrorList at hx
  rw [hz] at hx
  simp only [List.mem_append, List.append_nil, or_assoc] at hx
  rcases hx with hx | hx | hx | hx | hx | hx | hx | hx | hx
  · exact lastCh_required x hx
  · exact lastCh_type x hx
  · exact lastCh_version h3 x hx
  · exact lastCh_homepage h4 x hx
  · exact lastCh_deprecated x hx
  · exact lastCh_empty x hx
  · exact lastCh_seq x hx
  · exact lastCh_download h7 x hx
  · exact lastCh_manifest h8 x hx

/-! ## The exact no-raise condition of validate_mod_entry -/

/-- The value is a string. -/
def isStrB : JVal → Bool
  | .str _ => true
  | _ => false

/-- The value has a Python length. -/
def hasLenB : JVal → Bool
  | .str _ => true
  | .arr _ => true
  | .obj _ => true
  | _ => false

/-- The value is hashable (usable in set membership). -/
def isHashableB : JVal → Bool
  | .arr _ => false
  | .obj _ => false
  | _ => true

/-- The key is absent or holds a string: the condition under which
`re.match` on the value cannot raise. -/
def strOrAbsent (mod : Mod) (k : String) : Bool :=
  match dictGet? mod k with
  | none => true
  | some v => isStrB v

/-- The key is absent, a string, or falsy: the condition under which
`validate_url` on the value cannot raise. -/
def strOrFalsy (mod : Mod) (k : String) : Bool :=
  match dictGet? mod k with
  | none => true
  | some v => isStrB v || !pyTruthy v

/-- The key is absent or its value has a length. -/
def lenOrAbsent (mod : Mod) (k : String) : Bool :=
  match dictGet? mod k with
  | none => true
  | some v => hasLenB v

/-- The download block raises for an unhashable `type` and, in the
github_release branch, for a truthy non-string `repo`. -/
def downloadSafe (mod : Mod) : Bool :=
  match dictGet? mod "download" with
  | some (.obj d) =>
    isHashableB ((dictGet? d "type").getD .null) &&
    (if pyEqBool ((dictGet? d "type").getD .null) (.str "github_release") then
       match dictGet? d "repo" with
       | none => true
       | some v => isStrB v || !pyTruthy v
     else true)
  | _ => true

/-- The exact condition under which `validate_mod_entry` raises no
exception: every value handed unguarded to `re.match`, `urlparse`,
`len` or set membership has an acceptable type. -/
def entrySafe (mod : Mod) : Bool :=
  strOrAbsent mod "version" && strOrFalsy mod "homepage" &&
  strOrFalsy mod "changelog_url" && lenOrAbsent mod "description" &&
  downloadSafe mod && strOrFalsy mod "manifest_url"

theorem urlComponent_ok {v : JVal} {msg : String}
    (h : (isStrB v || !pyTruthy v) = true) :
    ∃ l, (pyValidateUrl v).map (fun ok => if ok then [] else [msg]) = .ok l := by
  cases v with
  | str s => exact ⟨_, rfl⟩
  | null => exact ⟨_, rfl⟩
  | bool b =>
    cases b with
    | false => exact ⟨_, rfl⟩
    | true => exact absurd h (by decide)
  | int n =>
    have hn : pyTruthy (.int n) = false := by
      simpa [isStrB] using h
    simp only [pyValidateUrl, hn]
    exact ⟨_, rfl⟩
  | arr xs =>
    have hn : pyTruthy (.arr xs) = false := by
      simpa [isStrB] using h
    simp only [pyValidateUrl, hn]
    exact ⟨_, rfl⟩
  | obj kvs =>
    have hn : pyTruthy (.obj kvs) = false := by
      simpa [isStrB] using h
    simp only [pyValidateUrl, hn]
    exact ⟨_, rfl⟩

theorem versionFieldErrors_ok {mod : Mod} {index : Nat} {n : String}
    (h : strOrAbsent mod "version" = true) :
    ∃ l, versionFieldErrors mod index n = .ok l := by
  unfold strOrAbsent at h
  unfold versionFieldErrors
  split
  · exact ⟨[], rfl⟩
  next v hv =>
    rw [hv] at h
    cases v with
    | str s => exact ⟨_, rfl⟩
    | null => simp [isStrB] at h
    | bool b => simp [isStrB] at h
    | int k => simp [isStrB] at h
    | arr xs => simp [isStrB] at h
    | obj kvs => simp [isStrB] at h

theorem homepageFieldErrors_ok {mod : Mod} {index : Nat} {n : String}
    (h : strOrFalsy mod "homepage" = true) :
    ∃ l, homepageFieldErrors mod index n = .ok l := by
  unfold strOrFalsy at h
  unfold homepageFieldErrors
  split
  · exact ⟨[], rfl⟩
  next v hv =>
    rw [hv] at h
    exact urlComponent_ok h

theorem changelogWarnings_ok {mod : Mod} {index : Nat} {n : String}
    (h : strOrFalsy mod "changelog_url" = true) :
    ∃ l, changelogWarnings mod index n = .ok l := by
  unfold strOrFalsy at h
  unfold changelogWarnings
  split
  · exact ⟨[], rfl⟩
  next v hv =>
    rw [hv] at h
    split
    next ht =>
      rcases Bool.or_eq_true _ _ |>.mp h with hs | hf
      · cases v with
        | str s => exact ⟨_, rfl⟩
        | null => simp [isStrB] at hs
        | bool b => simp [isStrB] at hs
        | int k => simp [isStrB] at hs
        | arr xs => simp [isStrB] at hs
        | obj kvs => simp [isStrB] at hs
      · rw [ht] at hf
        exact absurd hf (by decide)
    · exact ⟨[], rfl⟩

theorem descriptionWarnings_ok {mod : Mod} {index : Nat} {n : String}
    (h : lenOrAbsent mod "description" = true) :
    ∃ l, descriptionWarnings mod index n = .ok l := by
  unfold lenOrAbsent at h
  unfold descriptionWarnings
  split
  · exact ⟨[], rfl⟩
  next v hv =>
    rw [hv] at h
    cases v with
    | str s => exact ⟨_, rfl⟩
    | arr xs => exact ⟨_, rfl⟩
    | obj kvs => exact ⟨_, rfl⟩
    | null => simp [hasLenB] at h
    | bool b => simp [hasLenB] at h
    | int k => simp [hasLenB] at h

theorem manifestFieldErrors_ok {mod : Mod} {index : Nat} {n : String}
    (h : strOrFalsy mod "manifest_url" = true) :
    ∃ l, manifestFieldErrors mod index n = .ok l := by
  unfold strOrFalsy at h
  unfold manifestFieldErrors
  simp only []
  split
  next ht =>
    cases hv : dictGet? mod "manifest_url" with
    | none =>
      rw [hv] at ht
      exact absurd ht (by decide)
    | some v =>
      rw [hv] at h ht
      exact urlComponent_ok h
  · exact ⟨[], rfl⟩

theorem grErrors_ok {d : Mod} {index : Nat} {n : String}
    (h : (match dictGet? d "repo" with
          | none => true
          | some v => isStrB v || !pyTruthy v) = true) :
    ∃ ge, grErrors d index n = .ok ge := by
  have hb : ∃ b, (if pyTruthy ((dictGet? d "repo").getD .null) = true then
      pyReMatch matchRepo ((dictGet? d "repo").getD .null) else .ok false) = .ok b := by
    cases hv : dictGet? d "repo" with
    | none => exact ⟨false, rfl⟩
    | some v =>
      rw [hv] at h
      rw [Option.getD_some]
      rcases Bool.or_eq_true _ _ |>.mp h with hs | hf
      · cases v with
        | str s =>
          by_cases ht : pyTruthy (.str s) = true
          · rw [if_pos ht]
            exact ⟨_, rfl⟩
          · rw [if_neg ht]
            exact ⟨false, rfl⟩
        | null => simp [isStrB] at hs
        | bool b2 => simp [isStrB] at hs
        | int k2 => simp [isStrB] at hs
        | arr xs => simp [isStrB] at hs
        | obj kvs => simp [isStrB] at hs
      · have hf2 : pyTruthy v = false := by simpa using hf
        rw [if_neg (by simp [hf2])]
        exact ⟨false, rfl⟩
  obtain ⟨b, hb⟩ := hb
  unfold grErrors
  simp only []
  rw [hb]
  exact ⟨_, rfl⟩

theorem bind_error_inv {α β : Type} {x : Except PyErr α} {f : α → Except PyErr β}
    {e : PyErr} (h : x.bind f = .error e) :
    x = .error e ∨ ∃ a, x = .ok a ∧ f a = .error e := by
  cases x with
  | error e2 =>
    left
    simpa [Except.bind] using h
  | ok a => exact .inr ⟨a, rfl, h⟩

theorem getD_obj_inv {mod : Mod} {k : String} {d : Mod}
    (h : (dictGet? mod k).getD .null = .obj d) : dictGet? mod k = some (.obj d) := by
  cases hv : dictGet? mod k with
  | none =>
    rw [hv] at h
    exact absurd h (by simp [Option.getD])
  | some v =>
    rw [hv, Option.getD_some] at h
    rw [h]

theorem grErrors_error {d : Mod} {index : Nat} {n : String} {e : PyErr}
    (h : grErrors d index n = .error e) :
    (match dictGet? d "repo" with
     | none => true
     | some v => isStrB v || !pyTruthy v) = false := by
  unfold grErrors at h
  rcases bind_error_inv h with hx | ⟨b, _, hb⟩
  · cases hv : dictGet? d "repo" with
    | none =>
      rw [hv] at hx
      exact absurd hx (by simp [Option.getD, pyTruthy])
    | some v =>
      rw [hv] at hx
      rw [Option.getD_some] at hx
      split at hx
      next ht =>
        cases v with
        | str s => exact absurd hx (by simp [pyReMatch])
        | null => exact absurd ht (by decide)
        | bool b2 => simp [isStrB, ht]
        | int k2 => simp [isStrB, ht]
        | arr xs => simp [isStrB, ht]
        | obj kvs => simp [isStrB, ht]
      next ht => exact absurd hx (by simp)
  · exact absurd hb (by simp)

theorem validate_download_block_ok {mod : Mod} {index : Nat}
    (h : downloadSafe mod = true) :
    ∃ dl, validate_download_block mod index = .ok dl := by
  cases hres : validate_download_block mod index with
  | ok dl => exact ⟨dl, rfl⟩
  | error e =>
    exfalso
    unfold validate_download_block at hres
    simp only [] at hres
    split at hres
    next d hd =>
      unfold downloadSafe at h
      rw [getD_obj_inv hd] at h
      rw [Bool.and_eq_true] at h
      obtain ⟨h1, h2⟩ := h
      cases hv : (dictGet? d "type").getD .null with
      | arr xs =>
        rw [hv] at h1
        exact absurd h1 (by simp [isHashableB])
      | obj kvs =>
        rw [hv] at h1
        exact absurd h1 (by simp [isHashableB])
      | null =>
        rw [hv] at hres
        exact absurd hres (by simp [pyHashableCheck, Except.bind, pyEqBool])
      | bool b =>
        rw [hv] at hres
        exact absurd hres (by simp [pyHashableCheck, Except.bind, pyEqBool])
      | int k =>
        rw [hv] at hres
        exact absurd hres (by simp [pyHashableCheck, Except.bind, pyEqBool])
      | str s =>
        rw [hv] at hres h2
        simp only [pyHashableCheck, Except.bind] at hres
        split at hres
        · exact absurd hres (by simp)
        · rcases bind_error_inv hres with hge | ⟨ge, _, hres2⟩
          · split at hge
            next hGR =>
              rw [if_pos hGR] at h2
              rw [grErrors_error hge] at h2
              exact absurd h2 (by decide)
            next hGR => exact absurd hge (by simp)
          · exact absurd hres2 (by simp)
    next =>
      exact absurd hres (by simp)

/-- Under `entrySafe`, every block of validate_mod_entry returns and so
does the whole call. -/
theorem entrySafe_ok (mod : Mod) (index : Nat) (h : entrySafe mod = true) :
    ∃ E W, validate_mod_entry mod index = .ok (E, W) := by
  unfold entrySafe at h
  simp only [Bool.and_eq_true] at h
  obtain ⟨⟨⟨⟨⟨hv, hh⟩, hc⟩, hd⟩, hdl⟩, hm⟩ := h
  obtain ⟨e3, h3⟩ := @versionFieldErrors_ok mod index (modNameOf mod) hv
  obtain ⟨e4, h4⟩ := @homepageFieldErrors_ok mod index (modNameOf mod) hh
  obtain ⟨w1, h5⟩ := @changelogWarnings_ok mod index (modNameOf mod) hc
  obtain ⟨w2, h6⟩ := @descriptionWarnings_ok mod index (modNameOf mod) hd
  obtain ⟨dl, h7⟩ := @validate_download_block_ok mod index hdl
  obtain ⟨e8, h8⟩ := @manifestFieldErrors_ok mod index (modNameOf mod) hm
  exact ⟨_, _, validate_mod_entry_eq_ok h3 h4 h5 h6 h7 h8⟩

/-! ## Helpers on the non-zip rule -/

theorem assetNameOf_empty_of_falsy {mod : Mod} {d : Mod}
    (hd : dictGet? mod "download" = some (.obj d))
    (ha : pyTruthy ((dictGet? d "asset").getD .null) = false) :
    assetNameOf mod = "" := by
  unfold assetNameOf
  rw [hd]
  show (if d.isEmpty = true then ""
        else (let a := (dictGet? d "asset").getD JVal.null;
              if pyTruthy a = true then pyStr a else "")) = ""
  by_cases hde : d.isEmpty = true
  · rw [if_pos hde]
  · rw [if_neg hde]
    simp only []
    rw [if_neg (by simp [ha])]

theorem zipRule_empty_of_empty_asset {mod : Mod} {index : Nat} {n : String}
    (hA : assetNameOf mod = "") : zipRuleErrors mod index n = [] := by
  unfold zipRuleErrors
  simp only []
  rw [hA]
  rfl

theorem zipRule_empty_of_zip {mod : Mod} {index : Nat} {n : String}
    (hz : endsWithStr (lowerStr (assetNameOf mod)) ".zip" = true) :
    zipRuleErrors mod index n = [] := by
  unfold zipRuleErrors
  simp only []
  rw [if_neg (by simp [hz])]

theorem zipRule_fires {mod : Mod} {index : Nat} {n : String}
    (hne : (assetNameOf mod).isEmpty = false)
    (hnz : endsWithStr (lowerStr (assetNameOf mod)) ".zip" = false)
    (hm : pyTruthy ((dictGet? mod "manifest_url").getD .null) = false) :
    zipRuleErrors mod index n =
      [mkTag index n ++ "Non-zip release assets require a valid manifest_url"] := by
  unfold zipRuleErrors
  simp only []
  rw [if_pos (by rw [hne, hnz, hm]; decide)]

/-! ## Claim theorems: C2, C3, C4, C9 -/

/-- Claim C2 is refuted: an entry whose `version` value is the integer
1 makes `validate_mod_entry` raise a TypeError from `re.match` instead
of returning accumulated messages. -/
theorem claim_C2_counterexample :
    validate_mod_entry entryVersionInt 1 =
      .error (.typeError "expected string or bytes-like object") := by
  rfl

/-- Claim C2 (amended): validate_mod_entry returns normally with
(errors, warnings) for every entry whose inspected values have the
types the checks hand to the standard library unguarded: `version` a
string when present; `homepage`, `changelog_url` and `manifest_url`
strings whenever truthy; `description` with a length; `download.type`
hashable and `download.repo` a string whenever truthy.  Outside that
condition a TypeError or AttributeError escapes. -/
theorem claim_C2_amended (mod : Mod) (index : Nat) (h : entrySafe mod = true) :
    ∃ E W, validate_mod_entry mod index = .ok (E, W) :=
  entrySafe_ok mod index h

/-- Witness for C2 at a concrete safe entry. -/
theorem claim_C2_witness :
    entrySafe (baseEntry directDownload []) = true ∧
    ∃ E W, validate_mod_entry (baseEntry directDownload []) 1 = .ok (E, W) :=
  ⟨by decide, claim_C2_amended (baseEntry directDownload []) 1 (by decide)⟩

/-- Claim C9: when the download value is an object whose `asset` is
absent or falsy, no error of a normal validate_mod_entry return ends
with the non-zip message; the rule compares only a non-empty resolved
asset name. -/
theorem claim_C9 (mod : Mod) (index : Nat) (d : Mod) (E W : List String)
    (hd : dictGet? mod "download" = some (.obj d))
    (ha : pyTruthy ((dictGet? d "asset").getD .null) = false)
    (hok : validate_mod_entry mod index = .ok (E, W)) :
    ∀ x ∈ E,
      endsWithStr x "Non-zip release assets require a valid manifest_url" = false := by
  intro x hx
  have hl := entryErrors_lastCh hok
    (zipRule_empty_of_empty_asset (assetNameOf_empty_of_falsy hd ha)) x hx
  apply not_endsWith_of_lastCh _ _ (by decide)
  have hlit : lastCh "Non-zip release assets require a valid manifest_url" = 'l' := by
    decide
  rw [hlit]
  exact hl

/-- An entry valid except for a malformed homepage, with a direct
download and no asset. -/
def entryBadHome : Mod :=
  [("name", .str "M"), ("version", .str "1.0.0"), ("type", .str "ui"),
   ("author", .str "a"), ("description", .str "d"), ("homepage", .str "x"),
   ("download", directDownload)]

/-- Witness for C9: a concrete entry with a download object, no asset,
and a non-empty error list (a bad homepage) free of the non-zip
message. -/
theorem claim_C9_witness :
    validate_mod_entry entryBadHome 1 =
      .ok (["Mod #1 (M): Invalid homepage URL \x27x\x27"], []) ∧
    ∀ x ∈ (["Mod #1 (M): Invalid homepage URL \x27x\x27"] : List String),
      endsWithStr x "Non-zip release assets require a valid manifest_url" = false :=
  ⟨rfl, claim_C9 entryBadHome 1 _ _ _ rfl rfl rfl⟩

/-- Claim C3 is refuted: the code lower-cases the asset name before
the `.zip` suffix check, so the asset `Mod.ZIP` with no manifest_url
produces no error at all, while the claim asserts the non-zip error is
emitted. -/
theorem claim_C3_counterexample :
    validate_mod_entry (baseEntry (grDownload "Mod.ZIP") []) 1 = .ok ([], []) := by
  rfl

/-- Claim C3 (amended): the suffix check is case-insensitive.  For an
entry with a non-empty resolved asset name and a falsy manifest_url
that returns normally, the non-zip error is emitted exactly when the
lower-cased asset name does not end in `.zip`. -/
theorem claim_C3_amended (mod : Mod) (index : Nat) (E W : List String)
    (hne : (assetNameOf mod).isEmpty = false)
    (hm : pyTruthy ((dictGet? mod "manifest_url").getD .null) = false)
    (hok : validate_mod_entry mod index = .ok (E, W)) :
    ((mkTag index (modNameOf mod) ++
        "Non-zip release assets require a valid manifest_url") ∈ E ↔
      endsWithStr (lowerStr (assetNameOf mod)) ".zip" = false) := by
  constructor
  · intro hmem
    cases hcc : endsWithStr (lowerStr (assetNameOf mod)) ".zip" with
    | false => rfl
    | true =>
      exfalso
      have hl := entryErrors_lastCh hok (zipRule_empty_of_zip hcc) _ hmem
      apply hl
      rw [lastCh_append _ _ (by decide)]
      decide
  · intro hnz
    obtain ⟨e3, e4, w1, w2, dl, e8, _, _, _, _, _, _, hE, _⟩ :=
      validate_mod_entry_ok hok
    rw [hE]
    unfold entryErrorList
    rw [zipRule_fires hne hnz hm]
    simp [List.mem_append]

/-- Witness for C3 at the asset `Mod.rar` with no manifest_url. -/
theorem claim_C3_witness :
    validate_mod_entry (baseEntry (grDownload "Mod.rar") []) 1 =
      .ok (["Mod #1 (M): Non-zip release assets require a valid manifest_url"], []) ∧
    (("Mod #1 (M): Non-zip release assets require a valid manifest_url" ∈
        (["Mod #1 (M): Non-zip release assets require a valid manifest_url"] :
          List String)) ↔
      endsWithStr (lowerStr (assetNameOf (baseEntry (grDownload "Mod.rar") [])))
        ".zip" = false) :=
  ⟨rfl, claim_C3_amended (baseEntry (grDownload "Mod.rar") []) 1 _ _ rfl rfl rfl⟩

/-- Claim C4 is refuted: an entry carrying `manifest_url` with the
empty string (which fails the URL predicate) produces no Invalid
manifest_url error, because the check is guarded by truthiness and the
empty string is falsy. -/
theorem claim_C4_counterexample :
    validate_mod_entry
      (baseEntry (grDownload "Mod.zip") [("manifest_url", .str "")]) 1 =
      .ok ([], []) := by
  rfl

/-- Claim C4 (amended): an Invalid manifest_url error is emitted when
`manifest_url` holds a truthy (non-empty) string failing the URL
predicate; an empty manifest_url is skipped by the truthiness guard. -/
theorem claim_C4_amended (mod : Mod) (index : Nat) (m : String) (E W : List String)
    (hm : dictGet? mod "manifest_url" = some (.str m))
    (hne : m.isEmpty = false)
    (hurl : validate_url m = false)
    (hok : validate_mod_entry mod index = .ok (E, W)) :
    (mkTag index (modNameOf mod) ++ "Invalid manifest_url \x27" ++ m ++ "\x27") ∈ E := by
  obtain ⟨e3, e4, w1, w2, dl, e8, _, _, _, _, _, h8, hE, _⟩ :=
    validate_mod_entry_ok hok
  have h8v : manifestFieldErrors mod index (modNameOf mod) =
      .ok [mkTag index (modNameOf mod) ++ "Invalid manifest_url \x27" ++ m ++ "\x27"] := by
    unfold manifestFieldErrors
    simp only []
    rw [hm, Option.getD_some]
    rw [if_pos (by simp [pyTruthy, hne])]
    simp [pyValidateUrl, Except.map, hurl, pyStr]
  rw [h8v] at h8
  injection h8 with h8
  rw [hE]
  unfold entryErrorList
  rw [← h8]
  simp [List.mem_append]

/-- Witness for C4 at the truthy failing string `not-a-url`. -/
theorem claim_C4_witness :
    validate_mod_entry
      (baseEntry (grDownload "Mod.zip") [("manifest_url", .str "not-a-url")]) 1 =
      .ok (["Mod #1 (M): Invalid manifest_url \x27not-a-url\x27"], []) ∧
    ("Mod #1 (M): Invalid manifest_url \x27not-a-url\x27" ∈
      (["Mod #1 (M): Invalid manifest_url \x27not-a-url\x27"] : List String)) :=
  ⟨rfl,
   claim_C4_amended
     (baseEntry (grDownload "Mod.zip") [("manifest_url", .str "not-a-url")])
     1 "not-a-url" _ _ rfl rfl rfl rfl⟩

/-- The download block around a `latest` value reduces to the latest
check plus the (always empty here) tag checks. -/
theorem vdb_latestMod (v : JVal) :
    validate_download_block (latestMod v) 1 =
      .ok (((if (!pyMemNFT v) = true
             then ["Mod #1 (Unknown): download.latest must be boolean when provided"]
             else []) ++
            (if (!pyTruthy v) = true then [] else [])) ++ [], []) := by
  cases v <;> rfl

/-- Claim C5 is refuted: tuple membership uses Python equality, under
which `0 == False`, `1 == True`, and `None` is itself a member, so a
`latest` of integer 1 or 0 or an explicit null produces no error,
while the claim asserts the boolean error is emitted for them. -/
theorem claim_C5_counterexample :
    validate_download_block (latestMod (.int 1)) 1 = .ok ([], []) ∧
    validate_download_block (latestMod (.int 0)) 1 = .ok ([], []) ∧
    validate_download_block (latestMod .null) 1 = .ok ([], []) :=
  ⟨rfl, rfl, rfl⟩

/-- Claim C5 (amended): the boolean error is emitted exactly when the
`latest` value is not equal, under Python equality, to one of None,
False, True — so absent, null, booleans and the integers 0 and 1 pass,
while strings, other integers, lists and objects are flagged. -/
theorem claim_C5_amended :
    (∀ v : JVal, validate_download_block (latestMod v) 1 =
      .ok ((if pyMemNFT v = false
            then ["Mod #1 (Unknown): download.latest must be boolean when provided"]
            else []), [])) ∧
    validate_download_block latestAbsentMod 1 = .ok ([], []) := by
  constructor
  · intro v
    rw [vdb_latestMod v]
    cases hc : pyMemNFT v <;> simp [hc]
  · rfl

/-- Claim C1 is refuted: in a run whose manifest parses, an entry with
an unhashable name (a list) crashes `check_duplicates` with an
uncaught TypeError, so the process exits with status 1 although the
accumulated error list is empty. -/
theorem claim_C1_counterexample :
    validate_store_structure storeListName = ([], []) ∧
    validate_mod_entry entryListName 1 = .ok ([], []) ∧
    runValidation storeListName = .error (.typeError "unhashable type: \x27list\x27") ∧
    mainAfterParse storeListName = .error (.typeError "unhashable type: \x27list\x27") :=
  ⟨rfl, rfl, rfl, rfl⟩

/-- Claim C1 (amended): provided the validation pass completes without
an uncaught exception, the exit status is 1 exactly when the
accumulated error list is non-empty and 0 exactly when it is empty;
warnings never influence the status. -/
theorem claim_C1_amended (data : Mod) (E W : List String)
    (h : runValidation data = .ok (E, W)) :
    (mainAfterParse data = .ok 1 ↔ E ≠ []) ∧
    (mainAfterParse data = .ok 0 ↔ E = []) := by
  have hmain : mainAfterParse data = .ok (if E.isEmpty then 0 else 1) := by
    unfold mainAfterParse
    rw [h]
    rfl
  rw [hmain]
  cases hE : E.isEmpty with
  | true =>
    have hE2 : E = [] := by
      cases E with
      | nil => rfl
      | cons a l => exact absurd hE (by simp)
    simp [hE2]
  | false =>
    have hE2 : E ≠ [] := by
      intro hc
      rw [hc] at hE
      exact absurd hE (by simp)
    simp [hE2]

/-- Witness for C1: a store whose only diagnostic is the advisory
mod_count warning exits with status 0. -/
theorem claim_C1_witness :
    runValidation storeCountDrift =
      .ok ([], ["mod_count (5) does not match actual count (0)"]) ∧
    ((mainAfterParse storeCountDrift = .ok 1 ↔ ([] : List String) ≠ []) ∧
     (mainAfterParse storeCountDrift = .ok 0 ↔ ([] : List String) = [])) :=
  ⟨rfl, claim_C1_amended storeCountDrift _ _ rfl⟩

/-- Claim C8: every normal return of validate_download_block carries an
empty warnings list — the function only ever produces errors. -/
theorem claim_C8 (mod : Mod) (index : Nat) (E W : List String)
    (h : validate_download_block mod index = .ok (E, W)) : W = [] := by
  unfold validate_download_block at h
  simp only [] at h
  split at h
  next d hd =>
    obtain ⟨tv, _, h⟩ := bind_ok_inv h
    split at h
    · injection h with h
      rw [Prod.mk.injEq] at h
      exact h.2.symm
    · obtain ⟨ge, _, h⟩ := bind_ok_inv h
      injection h with h
      rw [Prod.mk.injEq] at h
      exact h.2.symm
  next =>
    injection h with h
    rw [Prod.mk.injEq] at h
    exact h.2.symm

/-- Witness for C8 at a non-object download value. -/
theorem claim_C8_witness :
    validate_download_block [("download", JVal.str "x")] 1 =
      .ok (["Mod #1 (Unknown): \x27download\x27 must be an object"], []) ∧
    ([] : List String) = [] :=
  ⟨rfl, claim_C8 [("download", JVal.str "x")] 1 _ _ rfl⟩

/-! ## C6: the version regex against its declarative reading -/

/-- Modelled from the claim wording: the string consists exactly of
three dot-separated runs of decimal digits with nothing before or
after. -/
def versionShape (s : String) : Prop :=
  ∃ a b c : List Char, a ≠ [] ∧ b ≠ [] ∧ c ≠ [] ∧
    (∀ ch ∈ a, ch.isDigit = true) ∧ (∀ ch ∈ b, ch.isDigit = true) ∧
    (∀ ch ∈ c, ch.isDigit = true) ∧
    s.data = a ++ ('.' :: (b ++ ('.' :: c)))

/-- The same three runs followed by exactly one trailing newline. -/
def versionShapeNL (s : String) : Prop :=
  ∃ a b c : List Char, a ≠ [] ∧ b ≠ [] ∧ c ≠ [] ∧
    (∀ ch ∈ a, ch.isDigit = true) ∧ (∀ ch ∈ b, ch.isDigit = true) ∧
    (∀ ch ∈ c, ch.isDigit = true) ∧
    s.data = a ++ ('.' :: (b ++ ('.' :: (c ++ ['\n']))))

theorem isEmpty_false_of_ne {d : List Char} (h : d ≠ []) : d.isEmpty = false := by
  cases d with
  | nil => exact absurd rfl h
  | cons x t => rfl

theorem takeWhile_all {p : Char → Bool} :
    ∀ (a : List Char), (∀ x ∈ a, p x = true) →
      a.takeWhile p = a ∧ a.dropWhile p = [] := by
  intro a
  induction a with
  | nil => intro _; exact ⟨rfl, rfl⟩
  | cons x t ih =>
    intro hall
    have hx : p x = true := hall x (by simp)
    have ht := ih (fun c hc => hall c (by simp [hc]))
    rw [List.takeWhile_cons, List.dropWhile_cons, if_pos hx, if_pos hx, ht.1, ht.2]
    exact ⟨rfl, rfl⟩

theorem takeWhile_run {p : Char → Bool} :
    ∀ (a : List Char) (x : Char) (t : List Char),
      (∀ c ∈ a, p c = true) → p x = false →
      (a ++ x :: t).takeWhile p = a ∧ (a ++ x :: t).dropWhile p = x :: t := by
  intro a
  induction a with
  | nil =>
    intro x t _ hx
    rw [List.nil_append, List.takeWhile_cons, List.dropWhile_cons,
      if_neg (by simp [hx]), if_neg (by simp [hx])]
    exact ⟨rfl, rfl⟩
  | cons y a2 ih =>
    intro x t hall hx
    have hy : p y = true := hall y (by simp)
    have h2 := ih x t (fun c hc => hall c (by simp [hc])) hx
    rw [List.cons_append, List.takeWhile_cons, List.dropWhile_cons,
      if_pos hy, if_pos hy, h2.1, h2.2]
    exact ⟨rfl, rfl⟩

theorem runDigits_inv {cs : List Char} {k : List Char → Bool}
    (h : runDigits cs k = true) :
    ∃ d rest, cs = d ++ rest ∧ d ≠ [] ∧ (∀ c ∈ d, c.isDigit = true) ∧
      k rest = true := by
  unfold runDigits at h
  rw [Bool.and_eq_true] at h
  obtain ⟨h1, h2⟩ := h
  refine ⟨cs.takeWhile Char.isDigit, cs.dropWhile Char.isDigit,
    (List.takeWhile_append_dropWhile _ _).symm, ?_, ?_, h2⟩
  · intro hc
    rw [hc] at h1
    exact absurd h1 (by decide)
  · intro c hc
    exact List.mem_takeWhile_imp hc

theorem expectCh_inv {c : Char} {cs : List Char} {k : List Char → Bool}
    (h : expectCh c cs k = true) : ∃ r, cs = c :: r ∧ k r = true := by
  unfold expectCh at h
  split at h
  next c2 r =>
    rw [Bool.and_eq_true] at h
    obtain ⟨h1, h2⟩ := h
    exact ⟨r, by rw [eq_of_beq h1], h2⟩
  next => exact absurd h (by decide)

theorem dollarEnd_inv {cs : List Char} (h : dollarEnd cs = true) :
    cs = [] ∨ cs = ['\n'] := by
  unfold dollarEnd at h
  rw [Bool.or_eq_true] at h
  rcases h with h | h
  · exact .inl (List.isEmpty_iff.mp h)
  · exact .inr (eq_of_beq h)

theorem runDigits_intro_stop {d : List Char} {x : Char} {t : List Char}
    {k : List Char → Bool} (hne : d ≠ []) (hdig : ∀ c ∈ d, c.isDigit = true)
    (hx : x.isDigit = false) (hk : k (x :: t) = true) :
    runDigits (d ++ x :: t) k = true := by
  unfold runDigits
  obtain ⟨h1, h2⟩ := takeWhile_run d x t hdig hx
  rw [h1, h2, hk, isEmpty_false_of_ne hne]
  rfl

theorem runDigits_intro_all {d : List Char} {k : List Char → Bool}
    (hne : d ≠ []) (hdig : ∀ c ∈ d, c.isDigit = true) (hk : k [] = true) :
    runDigits d k = true := by
  unfold runDigits
  obtain ⟨h1, h2⟩ := takeWhile_all d hdig
  rw [h1, h2, hk, isEmpty_false_of_ne hne]
  rfl

theorem expectCh_intro {c : Char} {r : List Char} {k : List Char → Bool}
    (hk : k r = true) : expectCh c (c :: r) k = true := by
  unfold expectCh
  simp [hk]

/-- Claim C6 is refuted: `re.match` with a final `$` also matches just
before one trailing newline, so `validate_version` accepts the string
`1.2.3` followed by a newline, which has no decomposition into three
digit runs with nothing after them. -/
theorem claim_C6_counterexample :
    validate_version "1.2.3\n" = true ∧ ¬ versionShape "1.2.3\n" := by
  constructor
  · rfl
  · rintro ⟨a, b, c, ha, hb, hc, hda, hdb, hdc, heq⟩
    have hmem : '\n' ∈ ("1.2.3\n".data) := by decide
    rw [heq] at hmem
    simp only [List.mem_append, List.mem_cons] at hmem
    rcases hmem with h | h | h | h | h
    · exact absurd (hda _ h) (by decide)
    · exact absurd h (by decide)
    · exact absurd (hdb _ h) (by decide)
    · exact absurd h (by decide)
    · exact absurd (hdc _ h) (by decide)

/-- Claim C6 (amended): validate_version accepts exactly the strings
of three dot-separated runs of decimal digits, optionally followed by
one trailing newline (the regex dollar matches before a final
newline). -/
theorem claim_C6_amended (s : String) :
    validate_version s = true ↔ (versionShape s ∨ versionShapeNL s) := by
  constructor
  · intro h
    unfold validate_version at h
    obtain ⟨a, r1, hcs, ha, hda, h⟩ := runDigits_inv h
    obtain ⟨r1b, hr1, h⟩ := expectCh_inv h
    obtain ⟨b, r2, hr1b, hb, hdb, h⟩ := runDigits_inv h
    obtain ⟨r2b, hr2, h⟩ := expectCh_inv h
    obtain ⟨c, r3, hr2b, hc, hdc, h⟩ := runDigits_inv h
    rcases dollarEnd_inv h with h3 | h3
    · left
      refine ⟨a, b, c, ha, hb, hc, hda, hdb, hdc, ?_⟩
      rw [hcs, hr1, hr1b, hr2, hr2b, h3, List.append_nil]
    · right
      refine ⟨a, b, c, ha, hb, hc, hda, hdb, hdc, ?_⟩
      rw [hcs, hr1, hr1b, hr2, hr2b, h3]
  · rintro (⟨a, b, c, ha, hb, hc, hda, hdb, hdc, heq⟩ |
            ⟨a, b, c, ha, hb, hc, hda, hdb, hdc, heq⟩)
    · unfold validate_version
      rw [heq]
      apply runDigits_intro_stop ha hda (by decide)
      apply expectCh_intro
      apply runDigits_intro_stop hb hdb (by decide)
      apply expectCh_intro
      exact runDigits_intro_all hc hdc rfl
    · unfold validate_version
      rw [heq]
      apply runDigits_intro_stop ha hda (by decide)
      apply expectCh_intro
      apply runDigits_intro_stop hb hdb (by decide)
      apply expectCh_intro
      exact runDigits_intro_stop hc hdc (by decide) rfl

/-! ## C7: check_duplicates against its declarative reading -/

/-- The name an entry contributes to duplicate detection (the default
empty string when the key is absent). -/
def entryNameStr (m : JVal) : String :=
  match m with
  | .obj d =>
    (match dictGet? d "name" with
     | some (.str s) => s
     | _ => "")
  | _ => ""

/-- Entries are dicts whose name values, when present, are strings
(the setting of every example in the claim). -/
def wfMods (mods : List JVal) : Bool :=
  mods.all (fun m =>
    match m with
    | .obj d =>
      (match dictGet? d "name" with
       | none => true
       | some (.str _) => true
       | some _ => false)
    | _ => false)

/-- First index of a name in the list of previously seen names. -/
def firstIdx : List String → String → Option Nat
  | [], _ => none
  | p :: rest, s => if p == s then some 0 else (firstIdx rest s).map (· + 1)

/-- Modelled from the claim wording: scan the names in order; a name
seen earlier yields exactly one message naming its first-seen index
and the current index, and a first occurrence yields nothing. -/
def dupSpecGo (prior : List String) : List String → List String
  | [] => []
  | n :: rest =>
    match firstIdx prior n with
    | some j => dupMsg n j prior.length :: dupSpecGo (prior ++ [n]) rest
    | none => dupSpecGo (prior ++ [n]) rest

theorem firstIdx_append (prior : List String) (n s : String) :
    firstIdx (prior ++ [n]) s =
      (match firstIdx prior s with
       | some j => some j
       | none => if n == s then some prior.length else none) := by
  induction prior with
  | nil =>
    by_cases hn : (n == s) = true <;> simp [firstIdx, hn]
  | cons p rest ih =>
    by_cases hp : (p == s) = true
    · simp [firstIdx, hp]
    · cases hf : firstIdx rest s with
      | some j => simp [firstIdx, hp, ih, hf]
      | none =>
        by_cases hn : (n == s) = true <;>
          simp [firstIdx, hp, ih, hf, hn, List.length_cons]

theorem dupGo_spec :
    ∀ (ms : List JVal) (prior : List String) (names : List (JVal × Nat)),
      wfMods ms = true →
      (∀ s : String, dupLookup names (.str s) = firstIdx prior s) →
      dupGo ms prior.length names = .ok (dupSpecGo prior (ms.map entryNameStr)) := by
  intro ms
  induction ms with
  | nil =>
    intro prior names _ _
    rfl
  | cons m rest ih =>
    intro prior names hwf hinv
    unfold wfMods at hwf
    rw [List.all_cons, Bool.and_eq_true] at hwf
    obtain ⟨hm, hrest⟩ := hwf
    have hrest2 : wfMods rest = true := hrest
    cases m with
    | obj d =>
      have hm2 : (match dictGet? d "name" with
                  | none => true
                  | some (JVal.str _) => true
                  | some _ => false) = true := hm
      have hname : (dictGet? d "name").getD (.str "") =
          .str (entryNameStr (.obj d)) := by
        cases hv : dictGet? d "name" with
        | none => simp [entryNameStr, hv, Option.getD]
        | some v =>
          rw [hv] at hm2
          cases v with
          | str s => simp [entryNameStr, hv, Option.getD]
          | null => simp at hm2
          | bool b => simp at hm2
          | int k => simp at hm2
          | arr xs => simp at hm2
          | obj kvs => simp at hm2
      unfold dupGo
      simp only [pyGetAttrDict, Except.bind]
      rw [hname]
      simp only [pyHashableCheck, Except.bind]
      rw [List.map_cons]
      unfold dupSpecGo
      rw [hinv (entryNameStr (.obj d))]
      cases hj : firstIdx prior (entryNameStr (.obj d)) with
      | some j =>
        have hinv2 : ∀ s : String, dupLookup names (.str s) =
            firstIdx (prior ++ [entryNameStr (.obj d)]) s := by
          intro s
          rw [firstIdx_append, hinv s]
          cases hf : firstIdx prior s with
          | some j2 => rfl
          | none =>
            by_cases hs : (entryNameStr (.obj d) == s) = true
            · rw [eq_of_beq hs] at hj
              rw [hj] at hf
              exact absurd hf (by simp)
            · simp [hs]
        have hlen : (prior ++ [entryNameStr (.obj d)]).length = prior.length + 1 := by
          simp
        have hrec := ih (prior ++ [entryNameStr (.obj d)]) names hrest2 hinv2
        rw [hlen] at hrec
        rw [hrec]
        rfl
      | none =>
        have hinv2 : ∀ s : String,
            dupLookup ((JVal.str (entryNameStr (.obj d)), prior.length) :: names)
              (.str s) =
            firstIdx (prior ++ [entryNameStr (.obj d)]) s := by
          intro s
          rw [firstIdx_append]
          unfold dupLookup
          by_cases hs : (entryNameStr (.obj d) == s) = true
          · have hs2 := eq_of_beq hs
            rw [← hs2, hj]
            simp [pyEqBool, hs]
          · rw [hinv s]
            cases hf : firstIdx prior s with
            | some j2 => simp [pyEqBool, hs]
            | none => simp [pyEqBool, hs]
        have hlen : (prior ++ [entryNameStr (.obj d)]).length = prior.length + 1 := by
          simp
        have hrec := ih (prior ++ [entryNameStr (.obj d)])
          ((JVal.str (entryNameStr (.obj d)), prior.length) :: names) hrest2 hinv2
        rw [hlen] at hrec
        exact hrec
    | null => simp at hm
    | bool b => simp at hm
    | int k => simp at hm
    | str s => simp at hm
    | arr xs => simp at hm

/-- Claim C7: check_duplicates scans entries in order and equals the
declarative duplicate list — one message per entry whose name was seen
earlier, naming the first-seen and the current (0-based) index, with
first occurrences never flagged and absent names read as the empty
string. -/
theorem claim_C7 (mods : List JVal) (h : wfMods mods = true) :
    check_duplicates mods = .ok (dupSpecGo [] (mods.map entryNameStr)) :=
  dupGo_spec mods [] [] h (fun _ => rfl)

/-- Witness for C7 at the stores named A,B,A and with two missing
names. -/
theorem claim_C7_witness :
    wfMods modsABA = true ∧
    check_duplicates modsABA =
      .ok ["Duplicate mod name \x27A\x27 found at indices 0 and 2"] ∧
    wfMods modsNoName = true ∧
    check_duplicates modsNoName =
      .ok ["Duplicate mod name \x27\x27 found at indices 0 and 1"] :=
  ⟨by decide, claim_C7 modsABA (by decide), by decide,
   claim_C7 modsNoName (by decide)⟩

end FMStore
